import Mathlib

/-! Shallow embedding of the `cpl.frames` and `cpl.esorex` modules of
python-cpl.  Python dictionaries are modelled as association lists
(`lookupA` / `updateA`), Python `None` as `Option.none`, Python integers as
`Int`, and the filesystem touched by `Result.__init__` as an explicit record
threaded through the computation.  Python exceptions are modelled with
`Except PyErr`.  The code is Python 2: `str.split`, attribute deletion with
`del`, and `None`-vs-int comparisons are embedded with their Python 2
semantics, noted at each definition. -/

namespace PyCpl

/-- Python exceptions that the embedded fragments can raise.  `cpl` is the
`CplError` of `cpl.frames` (carrying the five fields set by
`CplError.__init__`); `openError` stands for the IOError of `pyfits.open` on
a missing file, `removeError` for the OSError of a failing `os.remove`. -/
inductive PyErr where
  | cpl (code : Int) (msg : String) (file : String) (line : Int) (function : String)
  | openError (path : String)
  | removeError (path : String)
  | keyError (k : String)
  | keyErrorI (k : Int)
  | indexError
  | attributeError (a : String)
deriving DecidableEq

/-- Association-list lookup, modelling Python `d[k]` / `k in d`. -/
def lookupA {β : Type} : List (String × β) → String → Option β
  | [], _ => none
  | (k, v) :: rest, key => if k = key then some v else lookupA rest key

/-- Association-list store, modelling Python `d[k] = v` (replace if the key
is present, append otherwise). -/
def updateA {β : Type} : List (String × β) → String → β → List (String × β)
  | [], key, v => [(key, v)]
  | (k, w) :: rest, key, v =>
      if k = key then (key, v) :: rest else (k, w) :: updateA rest key v

/-- Bound normalisation of `FrameConfig.__init__`:
`min_frames if min_frames > 0 else None`.  In Python 2 `None > 0` is false,
so an absent argument also normalises to `None`. -/
def normB : Option Int → Option Int
  | none => none
  | some v => if v > 0 then some v else none

/-- One `cpl.frames.FrameConfig` object.  `α` is the (opaque) type of frame
values a caller may store.  The `frames` attribute is doubly optional:
`none` means the attribute itself was removed by `del cfg.frames`
(`FrameList.__delitem__`), while `some none` is the attribute holding the
Python value `None`. -/
structure FrameConfig (α : Type) where
  tag : String
  min : Option Int
  max : Option Int
  frames : Option (Option α)
deriving DecidableEq

variable {α : Type}

/-- `FrameConfig.__init__(tag, min_frames, max_frames, frames)`: bounds are
normalised by `normB`, the `frames` attribute is set (to Python `None` when
the argument is absent). -/
def FrameConfig.init (tag : String) (min_frames max_frames : Option Int)
    (frames : Option α) : FrameConfig α :=
  ⟨tag, normB min_frames, normB max_frames, some frames⟩

/-- `FrameConfig.extend_range(min_frames, max_frames)`: the min bound is
updated only when currently set, to the smaller of the two, and becomes
`None` if the given bound is `None`; symmetrically for max with the larger. -/
def FrameConfig.extend_range (c : FrameConfig α) (min_frames max_frames : Option Int) :
    FrameConfig α :=
  { c with
    min := match c.min, min_frames with
           | none, _ => none
           | some a, some b => some (Min.min a b)
           | some _, none => none
    max := match c.max, max_frames with
           | none, _ => none
           | some a, some b => some (Max.max a b)
           | some _, none => none }

/-- `FrameConfig.set_range(min_frames, max_frames)`: unconditional overwrite
of both bounds. -/
def FrameConfig.set_range (c : FrameConfig α) (min_frames max_frames : Option Int) :
    FrameConfig α :=
  { c with min := min_frames, max := max_frames }

/-- Reading the `frames` attribute: raises `AttributeError` when the
attribute was deleted, otherwise yields the stored Python value. -/
def getFrames (c : FrameConfig α) : Except PyErr (Option α) :=
  match c.frames with
  | none => .error (.attributeError "frames")
  | some v => .ok v

/-- One declared triple `f` of `recipe.frameConfig()`: `f[0]` is the tag,
`f[1]` and `f[2]` the declared min and max. -/
abbrev Decl := String × Option Int × Option Int

/-- Loop body of `FrameList._cpl_dict` for one declared triple.  The state is
the pair `(s, self._values)`.  A tag already in `s` has its bounds widened
with `extend_range`; a tag only in `self._values` is entered into `s` (the
same object, so the `set_range` mutation is visible in both maps); a fresh
tag is entered into both maps as a new `FrameConfig`. -/
def cplStep (st : List (String × FrameConfig α) × List (String × FrameConfig α))
    (f : Decl) : List (String × FrameConfig α) × List (String × FrameConfig α) :=
  match lookupA st.1 f.1 with
  | some c =>
      let c2 := c.extend_range f.2.1 f.2.2
      (updateA st.1 f.1 c2, updateA st.2 f.1 c2)
  | none =>
      match lookupA st.2 f.1 with
      | some c =>
          let c2 := c.set_range f.2.1 f.2.2
          (updateA st.1 f.1 c2, updateA st.2 f.1 c2)
      | none =>
          let c2 := FrameConfig.init f.1 f.2.1 f.2.2 none
          (updateA st.1 f.1 c2, updateA st.2 f.1 c2)

/-- `FrameList._cpl_dict` for an available declaration `cfgs` (the value of
`recipe.frameConfig()`, a list of configurations whose second components are
the lists of declared triples).  Returns the merged view `s` together with
the mutated `self._values`. -/
def cplDict (values : List (String × FrameConfig α))
    (cfgs : List (String × List Decl)) :
    List (String × FrameConfig α) × List (String × FrameConfig α) :=
  cfgs.foldl (fun st cfg => cfg.2.foldl cplStep st) ([], values)

/-- `FrameList.__setitem__(key, value)`: with a declaration available the
merged view is computed and `d[key].frames = value` (raising `KeyError` when
the tag is unknown, the `UnknownTagError` of the spec); without one,
`self._values.setdefault(key, FrameConfig(key)).frames = value`.  The result
is the pair (dict that was addressed, `self._values`). -/
def framelist_setitem (values : List (String × FrameConfig α))
    (decls : Option (List (String × List Decl))) (key : String) (value : Option α) :
    Except PyErr (List (String × FrameConfig α) × List (String × FrameConfig α)) :=
  match decls with
  | some cfgs =>
      let st := cplDict values cfgs
      match lookupA st.1 key with
      | none => .error (.keyError key)
      | some c =>
          let c2 := { c with frames := some value }
          .ok (updateA st.1 key c2, updateA st.2 key c2)
  | none =>
      match lookupA values key with
      | some c =>
          let v2 := updateA values key { c with frames := some value }
          .ok (v2, v2)
      | none =>
          let c2 := { FrameConfig.init key (some 0) (some 0) (none : Option α) with
                      frames := some value }
          let v2 := updateA values key c2
          .ok (v2, v2)

/-- `FrameList.__delitem__(key)`: `del self._get_dict()[key].frames`.  Raises
`KeyError` for an unknown tag and `AttributeError` when the `frames`
attribute is already gone; otherwise removes the attribute in place. -/
def framelist_delitem (values : List (String × FrameConfig α))
    (decls : Option (List (String × List Decl))) (key : String) :
    Except PyErr (List (String × FrameConfig α) × List (String × FrameConfig α)) :=
  match decls with
  | some cfgs =>
      let st := cplDict values cfgs
      match lookupA st.1 key with
      | none => .error (.keyError key)
      | some c =>
          match c.frames with
          | none => .error (.attributeError "frames")
          | some _ =>
              let c2 := { c with frames := (none : Option (Option α)) }
              .ok (updateA st.1 key c2, updateA st.2 key c2)
  | none =>
      match lookupA values key with
      | none => .error (.keyError key)
      | some c =>
          match c.frames with
          | none => .error (.attributeError "frames")
          | some _ =>
              let c2 := { c with frames := (none : Option (Option α)) }
              let v2 := updateA values key c2
              .ok (v2, v2)

/-- Minimum of two optional bounds with `none` absorbing ("no lower bound
wins"), the min component of one `extend_range` call. -/
def combMin : Option Int → Option Int → Option Int
  | some a, some b => some (Min.min a b)
  | _, _ => none

/-- Maximum of two optional bounds with `none` absorbing. -/
def combMax : Option Int → Option Int → Option Int
  | some a, some b => some (Max.max a b)
  | _, _ => none

/-- Aggregate minimum over optional bounds, `none` absorbing.  Used to state
the widening behaviour of repeated `extend_range` calls. -/
def minAbsorb : List (Option Int) → Option Int
  | [] => none
  | b :: bs =>
      match bs with
      | [] => b
      | c :: cs => combMin b (minAbsorb (c :: cs))

/-- Aggregate maximum over optional bounds, `none` absorbing. -/
def maxAbsorb : List (Option Int) → Option Int
  | [] => none
  | b :: bs =>
      match bs with
      | [] => b
      | c :: cs => combMax b (maxAbsorb (c :: cs))

/-- Folding `extend_range` over a list of declared bound pairs. -/
def extFold (c : FrameConfig α) (ps : List (Option Int × Option Int)) : FrameConfig α :=
  ps.foldl (fun c p => c.extend_range p.1 p.2) c

/-- The declared occurrences of tag `T` in a flat list of triples, in order. -/
def occsIn (T : String) (fs : List Decl) : List (Option Int × Option Int) :=
  (fs.filter (fun f => f.1 == T)).map (fun f => f.2)

/-- One flat frame reference: either a file name or an in-memory
`pyfits.HDUList` (opaque, identified by a number). -/
inductive FrameRef where
  | path (s : String)
  | hdu (n : Nat)
deriving DecidableEq

/-- A Python frame value as tested by `expandframelist`: either a single
reference or a plain Python list of references.  A `pyfits.HDUList`, although
it subclasses `list`, fails the `isinstance(f, list) and not
isinstance(f, pyfits.HDUList)` test and is therefore a `ref`, never a `seq`. -/
inductive PyFrameVal where
  | ref (r : FrameRef)
  | seq (l : List FrameRef)
deriving DecidableEq

/-- `cpl.frames.expandframelist(frames)`: each (tag, value) pair contributes
one (tag, frame) pair per element of a list value, nothing for a `None`
value, and itself for any other value. -/
def expandframelist (frames : List (String × Option PyFrameVal)) :
    List (String × FrameRef) :=
  frames.foldl (fun acc p =>
    match p.2 with
    | some (.seq l) => acc ++ l.map (fun fr => (p.1, fr))
    | some (.ref r) => acc ++ [(p.1, r)]
    | none => acc) []

/-- Python 2 `str.isspace` characters as relevant to `str.split()` and
`str.strip()`. -/
def pyIsSpace (c : Char) : Bool :=
  c = ' ' ∨ c = '\t' ∨ c = '\n' ∨ c = '\r' ∨ c = '\x0b' ∨ c = '\x0c'

/-- Python `line.strip()`: remove leading and trailing whitespace. -/
def pyStrip (s : String) : String :=
  String.mk (((s.toList.dropWhile pyIsSpace).reverse.dropWhile pyIsSpace).reverse)

/-- Helper for `pySplitWs`: split a character list at whitespace runs,
dropping empty tokens; `cur` is the current token, reversed. -/
def splitWsChars : List Char → List Char → List String
  | [], [] => []
  | [], cur => [String.mk cur.reverse]
  | c :: rest, cur =>
      if pyIsSpace c then
        match cur with
        | [] => splitWsChars rest []
        | _ => String.mk cur.reverse :: splitWsChars rest []
      else splitWsChars rest (c :: cur)

/-- Python `s.split()` with no separator: split on whitespace runs, no empty
tokens.  In particular the whole-whitespace string `"\n"` splits to `[]`. -/
def pySplitWs (s : String) : List String :=
  splitWsChars s.toList []

/-- Python `line.startswith('#')` and friends: prefix test on the character
lists. -/
def pyStartsWith (s t : String) : Bool :=
  List.isPrefixOf t.toList s.toList

/-- Split a character list at its first `'='`, when there is one. -/
def breakAtEq : List Char → Option (List Char × List Char)
  | [] => none
  | c :: rest =>
      if c = '=' then some ([], rest)
      else
        match breakAtEq rest with
        | none => none
        | some (a, b) => some (c :: a, b)

/-- Python `s.split('=', 1)`: split at the first `'='` only; a string
without `'='` yields a one-element list. -/
def pySplitEq1 (s : String) : List String :=
  match breakAtEq s.toList with
  | none => [s]
  | some (a, b) => [String.mk a, String.mk b]

/-- A value of the tag→path mapping built by `load_sof`: a single file name
or the list that repeated tags accumulate into. -/
inductive SofVal where
  | single (s : String)
  | many (l : List String)
deriving DecidableEq

/-- Loop body of `cpl.esorex.load_sof` for one line: comment lines are
skipped; `line.split()[0]` and `line.split()[1]` raise `IndexError` when the
line has fewer than two whitespace-separated tokens; a fresh tag stores the
file name, a repeated tag promotes to / appends to a list. -/
def loadSofLine (res : List (String × SofVal)) (line : String) :
    Except PyErr (List (String × SofVal)) :=
  if pyStartsWith line "#" then .ok res
  else
    match pySplitWs line with
    | [] => .error .indexError
    | [_] => .error .indexError
    | fn :: key :: _ =>
        match lookupA res key with
        | none => .ok (updateA res key (.single fn))
        | some (.many l) => .ok (updateA res key (.many (l ++ [fn])))
        | some (.single v) => .ok (updateA res key (.many [v, fn]))

/-- `cpl.esorex.load_sof` on a list of lines. -/
def load_sof_list (lines : List String) : Except PyErr (List (String × SofVal)) :=
  lines.foldlM loadSofLine []

/-- `cpl.esorex.load_sof` on a string.  The source reads
`return load_sof(str.split('\n'))`: the unbound method `str.split` is
applied to the literal `'\n'` itself (not to `source`), and
`'\n'.split()` is `[]` — the input string `s` is ignored entirely. -/
def load_sof_str (s : String) : Except PyErr (List (String × SofVal)) :=
  load_sof_list (pySplitWs "\n")

/-- Loop body of `cpl.esorex.load_rc` for one line: empty, all-whitespace
and comment lines are skipped; `line.split('=', 1)[1]` raises `IndexError`
when the line has no `'='`; when both the name and the value part are
non-empty (Python truthiness, before stripping) the stripped pair is stored,
otherwise the line is ignored. -/
def loadRcLine (res : List (String × String)) (line : String) :
    Except PyErr (List (String × String)) :=
  if line = "" ∨ pyStrip line = "" ∨ pyStartsWith line "#" then .ok res
  else
    match pySplitEq1 line with
    | [] => .error .indexError
    | [_] => .error .indexError
    | name :: value :: _ =>
        if name ≠ "" ∧ value ≠ "" then .ok (updateA res (pyStrip name) (pyStrip value))
        else .ok res

/-- `cpl.esorex.load_rc` on a list of lines. -/
def load_rc (lines : List String) : Except PyErr (List (String × String)) :=
  lines.foldlM loadRcLine []

/-- A loaded `pyfits.HDUList` in `Result.__init__`, identified by the
absolute path it was opened from. -/
abbrev HDU := String

/-- The value a result tag slot holds: one HDU list, or a plain Python list
of HDU lists. -/
inductive ResVal where
  | single (h : HDU)
  | many (hs : List HDU)
deriving DecidableEq

/-- The filesystem visible to `Result.__init__`: existing files, each with a
flag telling whether `os.remove` would succeed on it. -/
structure FS where
  files : List (String × Bool)
deriving DecidableEq

/-- `os.path.join(dir, frame)`. -/
def pyJoin (dir frame : String) : String := dir ++ "/" ++ frame

/-- `os.path.abspath`: the result directory is assumed absolute, so this is
the identity on the paths that occur. -/
def pyAbspath (p : String) : String := p

/-- `pyfits.open(path)`: yields the HDU list when the file exists, otherwise
the caller raises (modelled as `none`). -/
def pyfitsOpen (fs : FS) (p : String) : Option HDU :=
  if (fs.files.map (fun e => e.1)).contains p then some p else none

/-- Removal of one path from the file table. -/
def removeEntry : List (String × Bool) → String → List (String × Bool)
  | [], _ => []
  | (k, v) :: rest, p => if k = p then rest else (k, v) :: removeEntry rest p

/-- `os.remove(path)`: succeeds only on an existing, removable file;
otherwise raises OSError. -/
def osRemove (fs : FS) (p : String) : Except PyErr FS :=
  match lookupA fs.files p with
  | some true => .ok ⟨removeEntry fs.files p⟩
  | _ => .error (.removeError p)

/-- File operations performed by `Result.__init__`, in order. -/
inductive FileOp where
  | opened (p : String)
  | removed (p : String)
deriving DecidableEq

/-- Shape-inference step of `Result.__init__` (lines 255–262): a fresh tag
stores the bare HDU unless `input_len == 1`, in which case a one-element
list; a tag holding a bare HDU list is promoted to a two-element Python
list; a tag already holding a Python list gets the HDU appended.  The tag
set is extended exactly in the fresh-tag branch. -/
def resultStep (input_len : Int) (dict : List (String × ResVal)) (tags : List String)
    (tag : String) (hdu : HDU) : List (String × ResVal) × List String :=
  match lookupA dict tag with
  | none =>
      (updateA dict tag (if input_len ≠ 1 then .single hdu else .many [hdu]),
       if tags.contains tag then tags else tags ++ [tag])
  | some (.single h) => (updateA dict tag (.many [h, hdu]), tags)
  | some (.many hs) => (updateA dict tag (.many (hs ++ [hdu])), tags)

/-- The result-frame loop of `Result.__init__`: for each (tag, frame) pair
open `abspath(join(dir, frame))`, remove `join(dir, frame)` when `delete`
holds (an OSError propagates), and store the HDU by the shape-inference
step.  Produces the trace of file operations and either the final
(dict, tags, filesystem) or the propagated exception. -/
def resultLoop (dir : String) (delete : Bool) (input_len : Int) :
    List (String × String) → FS → List FileOp → List (String × ResVal) →
    List String →
    List FileOp × Except PyErr (List (String × ResVal) × List String × FS)
  | [], fs, ops, dict, tags => (ops, .ok (dict, tags, fs))
  | (tag, frame) :: rest, fs, ops, dict, tags =>
      match pyfitsOpen fs (pyAbspath (pyJoin dir frame)) with
      | none => (ops, .error (.openError (pyAbspath (pyJoin dir frame))))
      | some hdu =>
          let ops1 := ops ++ [.opened (pyAbspath (pyJoin dir frame))]
          if delete then
            match osRemove fs (pyJoin dir frame) with
            | .error e => (ops1, .error e)
            | .ok fs1 =>
                let ops2 := ops1 ++ [.removed (pyJoin dir frame)]
                let dt := resultStep input_len dict tags tag hdu
                resultLoop dir delete input_len rest fs1 ops2 dt.1 dt.2
          else
            let dt := resultStep input_len dict tags tag hdu
            resultLoop dir delete input_len rest fs ops1 dt.1 dt.2

/-- `cpl.frames.Stat.__init__`: user time, system time, and the tri-state
memory flag from the dictionary `{-1: None, 0: False, 1: True}` (any other
flag raises `KeyError`).  The two times are opaque numbers here. -/
structure Stat where
  user_time : Int
  sys_time : Int
  memory_is_empty : Option Bool
deriving DecidableEq

def statInit (t : Int × Int × Int) : Except PyErr Stat :=
  if t.2.2 = -1 then .ok ⟨t.1, t.2.1, none⟩
  else if t.2.2 = 0 then .ok ⟨t.1, t.2.1, some false⟩
  else if t.2.2 = 1 then .ok ⟨t.1, t.2.1, some true⟩
  else .error (.keyErrorI t.2.2)

/-- A constructed `cpl.frames.Result` object: the per-tag slots of its
instance dictionary, the `tags` set (as a duplicate-free list), and `stat`. -/
structure ResultS where
  dict : List (String × ResVal)
  tags : List String
  stat : Stat
deriving DecidableEq

/-- `cpl.frames.Result.__init__(recipedefs, dir, res, delete, input_len)`
where `res = (res0, err, statT)`: a truthy (non-zero) error code raises
`CplError` with the five fields before any file is touched; otherwise the
result-frame loop runs and `stat` is built.  Returns the file-operation
trace together with the constructed object and final filesystem, or the
raised exception. -/
def resultInit (dir : String) (res0 : List (String × String))
    (err : Int × String × String × Int × String) (statT : Int × Int × Int)
    (delete : Bool) (input_len : Int) (fs : FS) :
    List FileOp × Except PyErr (ResultS × FS) :=
  if err.1 ≠ 0 then
    ([], .error (.cpl err.1 err.2.1 err.2.2.1 err.2.2.2.1 err.2.2.2.2))
  else
    match resultLoop dir delete input_len res0 fs [] [] [] with
    | (ops, .error e) => (ops, .error e)
    | (ops, .ok (dict, tags, fs1)) =>
        match statInit statT with
        | .error e => (ops, .error e)
        | .ok st => (ops, .ok (⟨dict, tags, st⟩, fs1))

/-- The filesystem holding exactly the files a result-pair list refers to,
all of them removable. -/
def fsOf (dir : String) (res0 : List (String × String)) : FS :=
  ⟨res0.map (fun p => (pyAbspath (pyJoin dir p.2), true))⟩

/-- Result construction on a success error descriptor with `delete=False`
over a filesystem holding every referenced file. -/
def runResult (dir : String) (res0 : List (String × String)) (input_len : Int) :
    List FileOp × Except PyErr (ResultS × FS) :=
  resultInit dir res0 (0, "", "", 0, "") (0, 0, 0) false input_len (fsOf dir res0)

/-- The slot stored for tag `T` by `runResult`. -/
def dictLookup (dir : String) (res0 : List (String × String)) (input_len : Int)
    (T : String) : Option ResVal :=
  match (runResult dir res0 input_len).2 with
  | .ok (s, _) => lookupA s.dict T
  | .error _ => none

/-- The file names carried by the result pairs with tag `T`, in order. -/
def tagFilesOf (T : String) (res0 : List (String × String)) : List String :=
  (res0.filter (fun p => p.1 == T)).map (fun p => p.2)

/-- Evolution of one tag slot as successive HDUs with that tag arrive
(specification-side restatement of `resultStep` restricted to one tag). -/
def feed (input_len : Int) : Option ResVal → List HDU → Option ResVal
  | cur, [] => cur
  | none, h :: hs =>
      feed input_len (some (if input_len ≠ 1 then .single h else .many [h])) hs
  | some (.single h0), h :: hs => feed input_len (some (.many [h0, h])) hs
  | some (.many l), h :: hs => feed input_len (some (.many (l ++ [h]))) hs

/-- Specification-side contribution of one (tag, value) pair to the
expanded frame list: nothing for an absent value, the single pair for a
non-sequence, one pair per element for a sequence. -/
def contribOf (p : String × Option PyFrameVal) : List (String × FrameRef) :=
  match p.2 with
  | none => []
  | some (.ref r) => [(p.1, r)]
  | some (.seq l) => l.map (fun fr => (p.1, fr))

/-! Theorems.  First the generic association-list lemmas, then the claims. -/

theorem lookupA_updateA_self {β : Type} (l : List (String × β)) (k : String) (v : β) :
    lookupA (updateA l k v) k = some v := by
  induction l with
  | nil => simp [lookupA, updateA]
  | cons a rest ih =>
      obtain ⟨k0, w⟩ := a
      by_cases h0 : k0 = k
      · simp [updateA, h0, lookupA]
      · simp [updateA, h0, lookupA, ih]

theorem lookupA_updateA_ne {β : Type} (k k' : String) (h : k' ≠ k)
    (l : List (String × β)) (v : β) :
    lookupA (updateA l k v) k' = lookupA l k' := by
  induction l with
  | nil => simp [lookupA, updateA, Ne.symm h]
  | cons a rest ih =>
      obtain ⟨k0, w⟩ := a
      by_cases h0 : k0 = k
      · subst h0
        simp [updateA, lookupA, Ne.symm h]
      · simp [updateA, lookupA, h0, ih]

/-- C6: extend_range is monotonically non-tightening: the stored min after
`extend_range(min', max')` is at most both the prior min and `min'` (or
absent), the stored max is at least both the prior max and `max'` (or
absent), and if either the prior bound or the given bound is absent the
resulting bound is absent. -/
theorem extend_range_non_tightening {α : Type} (c : FrameConfig α)
    (minf maxf : Option Int) :
    (∀ a, (c.extend_range minf maxf).min = some a →
        (∀ b, c.min = some b → a ≤ b) ∧ (∀ b, minf = some b → a ≤ b))
  ∧ (∀ a, (c.extend_range minf maxf).max = some a →
        (∀ b, c.max = some b → b ≤ a) ∧ (∀ b, maxf = some b → b ≤ a))
  ∧ ((c.min = none ∨ minf = none) → (c.extend_range minf maxf).min = none)
  ∧ ((c.max = none ∨ maxf = none) → (c.extend_range minf maxf).max = none) := by
  obtain ⟨t, m, x, fr⟩ := c
  cases m <;> cases x <;> cases minf <;> cases maxf <;>
    refine ⟨?_, ?_, ?_, ?_⟩ <;> simp [FrameConfig.extend_range]

theorem extend_range_non_tightening_witness :
    (FrameConfig.extend_range (⟨"RAW", none, some 4, some none⟩ : FrameConfig Nat)
      (some 2) (some 9)).min = none :=
  (extend_range_non_tightening _ (some 2) (some 9)).2.2.1 (Or.inl rfl)

theorem expand_aux (l : List (String × Option PyFrameVal))
    (acc : List (String × FrameRef)) :
    l.foldl (fun acc p =>
      match p.2 with
      | some (.seq l) => acc ++ l.map (fun fr => (p.1, fr))
      | some (.ref r) => acc ++ [(p.1, r)]
      | none => acc) acc = acc ++ l.flatMap contribOf := by
  induction l generalizing acc with
  | nil => simp
  | cons p rest ih =>
      obtain ⟨tag, f⟩ := p
      match f with
      | none => simp [ih, contribOf]
      | some (.ref r) => simp [ih, contribOf]
      | some (.seq s) => simp [ih, contribOf]

/-- C7: expand maps every ordered pair list, in order, to the flat list in
which an absent value contributes nothing, a non-sequence value (an
in-memory data unit included) contributes exactly its own pair, and a
sequence contributes one pair per element in order; in particular the
BIAS/FLAT/DARK example expands as stated. -/
theorem expandframelist_flat (frames : List (String × Option PyFrameVal)) :
    expandframelist frames = frames.flatMap contribOf
  ∧ expandframelist
      [("BIAS", some (.seq [.path "a.fits", .path "b.fits"])),
       ("FLAT", none), ("DARK", some (.ref (.path "d.fits")))] =
      [("BIAS", .path "a.fits"), ("BIAS", .path "b.fits"),
       ("DARK", .path "d.fits")] := by
  constructor
  · simpa [expandframelist] using expand_aux frames []
  · rfl

/-- C10: for every string input, `load_sof` returns the empty mapping: the
string branch splits the fixed literal `'\n'` (whose whitespace split is
empty) instead of the input, so the input's lines are never parsed. -/
theorem load_sof_str_ignores_input (s : String) : load_sof_str s = .ok [] := rfl

/-- C2: a non-zero error code in the invocation result raises the structured
CplError carrying all five fields, with no result object produced and no
file opened or removed, for every delete flag and every result-pair list. -/
theorem resultInit_error_raises (dir : String) (res0 : List (String × String))
    (code : Int) (txt fname : String) (eline : Int) (fnc : String)
    (statT : Int × Int × Int) (delete : Bool) (input_len : Int) (fs : FS)
    (h : code ≠ 0) :
    resultInit dir res0 (code, txt, fname, eline, fnc) statT delete input_len fs
      = ([], .error (.cpl code txt fname eline fnc)) := by
  simp [resultInit, h]

theorem resultInit_error_raises_witness :
    resultInit "/out" [("TAG", "a.fits")] (1, "boom", "muse.c", 7, "run")
        (0, 0, 0) true 0 ⟨[("/out/a.fits", true)]⟩
      = ([], .error (.cpl 1 "boom" "muse.c" 7 "run")) :=
  resultInit_error_raises "/out" [("TAG", "a.fits")] 1 "boom" "muse.c" 7 "run"
    (0, 0, 0) true 0 ⟨[("/out/a.fits", true)]⟩ (by decide)

/-- C8 counterexample: a non-comment, non-blank line without `'='` is not
ignored — `line.split('=', 1)[1]` raises IndexError, so parsing `["x"]`
fails instead of yielding the empty mapping. -/
theorem load_rc_missing_eq_fails : load_rc ["x"] = .error .indexError := rfl

/-- C8 as amended: comment and blank lines are skipped; a non-comment,
non-blank line without `'='` raises IndexError; a line with `'='` but an
empty name or value part is ignored; otherwise both sides are stored
stripped of surrounding whitespace; a later duplicate key overwrites an
earlier one; the `["x = 1", "# skip", "", "y=2"]` example parses as
claimed. -/
theorem load_rc_behaviour :
    (∀ res line, (line = "" ∨ pyStrip line = "" ∨ pyStartsWith line "#") →
        loadRcLine res line = .ok res)
  ∧ (∀ res line n, ¬(line = "" ∨ pyStrip line = "" ∨ pyStartsWith line "#") →
        pySplitEq1 line = [n] → loadRcLine res line = .error .indexError)
  ∧ (∀ res line n v r2, ¬(line = "" ∨ pyStrip line = "" ∨ pyStartsWith line "#") →
        pySplitEq1 line = n :: v :: r2 → n ≠ "" → v ≠ "" →
        loadRcLine res line = .ok (updateA res (pyStrip n) (pyStrip v)))
  ∧ (∀ res line n v r2, ¬(line = "" ∨ pyStrip line = "" ∨ pyStartsWith line "#") →
        pySplitEq1 line = n :: v :: r2 → (n = "" ∨ v = "") →
        loadRcLine res line = .ok res)
  ∧ load_rc ["x = 1", "# skip", "", "y=2"] = .ok [("x", "1"), ("y", "2")]
  ∧ load_rc ["y=1", "y=2"] = .ok [("y", "2")] := by
  refine ⟨?_, ?_, ?_, ?_, rfl, rfl⟩
  · intro res line h
    simp [loadRcLine, h]
  · intro res line n h hs
    simp [loadRcLine, h, hs]
  · intro res line n v r2 h hs hn hv
    simp [loadRcLine, h, hs, hn, hv]
  · intro res line n v r2 h hs hnv
    rcases hnv with hn | hv
    · subst hn; simp [loadRcLine, h, hs]
    · subst hv; simp [loadRcLine, h, hs]

theorem load_rc_behaviour_witness : loadRcLine [] "a=b" = .ok [("a", "b")] :=
  load_rc_behaviour.2.2.1 [] "a=b" "a" "b" [] (by decide) rfl (by decide) (by decide)

/-- C5: with a declaration available, assignment to a tag absent from the
merged view raises the unknown-tag error and assignment to a present tag
stores the value in its `frames`; without a declaration, assignment to a
missing tag creates a fresh FrameConfig with absent bounds holding the
value. -/
theorem framelist_set_asymmetry {α : Type} (values : List (String × FrameConfig α))
    (cfgs : List (String × List Decl)) (key : String) (value : Option α)
    (c : FrameConfig α) :
    (lookupA (cplDict values cfgs).1 key = none →
        framelist_setitem values (some cfgs) key value = .error (.keyError key))
  ∧ (lookupA (cplDict values cfgs).1 key = some c →
        (framelist_setitem values (some cfgs) key value).map (fun p => lookupA p.1 key)
          = .ok (some ⟨c.tag, c.min, c.max, some value⟩))
  ∧ (lookupA values key = none →
        (framelist_setitem values none key value).map (fun p => lookupA p.1 key)
          = .ok (some ⟨key, none, none, some value⟩)) := by
  refine ⟨?_, ?_, ?_⟩
  · intro h
    simp [framelist_setitem, h]
  · intro h
    simp [framelist_setitem, h, Except.map, lookupA_updateA_self]
  · intro h
    simp [framelist_setitem, h, Except.map, lookupA_updateA_self, FrameConfig.init, normB]

theorem framelist_set_asymmetry_witness :
    (framelist_setitem ([] : List (String × FrameConfig Nat)) none "SCI" (some 3)).map
        (fun p => lookupA p.1 "SCI")
      = .ok (some ⟨"SCI", none, none, some (some 3)⟩) :=
  (framelist_set_asymmetry [] [] "SCI" (some 3) ⟨"SCI", none, none, none⟩).2.2 rfl

/-- C9 counterexample: deleting a tag's value removes the `frames`
attribute, so a subsequent read raises AttributeError — not the `None` that
a declared, never-assigned tag reports; the two observable outcomes
differ. -/
theorem framelist_del_cex :
    (framelist_delitem [("T", FrameConfig.init "T" (some 1) (some 2) (some 5))]
        none "T").map (fun p => (lookupA p.1 "T").map getFrames)
      = .ok (some (.error (.attributeError "frames")))
  ∧ getFrames (FrameConfig.init "T" (some 1) (some 2) (none : Option Nat)) = .ok none
  ∧ (Except.error (PyErr.attributeError "frames")
      ≠ (Except.ok (none : Option Nat))) := by
  refine ⟨rfl, rfl, by simp⟩

/-- C9 as amended: delete(tag) removes the `frames` attribute of the tag's
FrameConfig: the entry stays present with min and max unchanged, but a
subsequent `frames` read raises AttributeError, unlike a declared tag never
assigned a value, which reports Python None. -/
theorem framelist_del_clears_attr {α : Type} (values : List (String × FrameConfig α))
    (cfgs : List (String × List Decl)) (key : String) (c : FrameConfig α)
    (w : Option α) :
    (lookupA values key = some c → c.frames = some w →
        (framelist_delitem values none key).map (fun p => lookupA p.1 key)
          = .ok (some ⟨c.tag, c.min, c.max, none⟩))
  ∧ (lookupA (cplDict values cfgs).1 key = some c → c.frames = some w →
        (framelist_delitem values (some cfgs) key).map (fun p => lookupA p.1 key)
          = .ok (some ⟨c.tag, c.min, c.max, none⟩))
  ∧ getFrames (⟨key, c.min, c.max, none⟩ : FrameConfig α)
      = .error (.attributeError "frames")
  ∧ getFrames (FrameConfig.init key c.min c.max (none : Option α)) = .ok none := by
  refine ⟨?_, ?_, rfl, rfl⟩
  · intro h hf
    simp [framelist_delitem, h, hf, Except.map, lookupA_updateA_self]
  · intro h hf
    simp [framelist_delitem, h, hf, Except.map, lookupA_updateA_self]

theorem framelist_del_clears_attr_witness :
    (framelist_delitem [("T", FrameConfig.init "T" (some 3) (some 4) (some 9))]
        none "T").map (fun p => lookupA p.1 "T")
      = .ok (some ⟨"T", some 3, some 4, (none : Option (Option Nat))⟩) :=
  (framelist_del_clears_attr [("T", FrameConfig.init "T" (some 3) (some 4) (some 9))]
    [] "T" (FrameConfig.init "T" (some 3) (some 4) (some 9)) (some 9)).1 rfl rfl

/-- C3 counterexample: with `delete=True`, a file that loads fine but cannot
be removed makes Result construction fail — the `os.remove` error
propagates (no try/except around it), so no Result object is built. -/
theorem result_delete_failure_cex :
    resultInit "/out" [("T", "f.fits")] (0, "", "", 0, "") (0, 0, 0) true 0
        ⟨[("/out/f.fits", false)]⟩
      = ([.opened "/out/f.fits"], .error (.removeError "/out/f.fits")) := rfl

/-- C3 as amended: during Result construction with `delete=True`, an
inability to remove an output file after its contents have been loaded is
fatal: the OSError propagates out of the constructor and no Result object
is produced. -/
theorem result_delete_failure_fatal (dir tag frame : String)
    (rest : List (String × String)) (statT : Int × Int × Int) (input_len : Int)
    (fs : FS)
    (hopen : pyfitsOpen fs (pyAbspath (pyJoin dir frame))
        = some (pyAbspath (pyJoin dir frame)))
    (hrm : osRemove fs (pyJoin dir frame)
        = .error (.removeError (pyJoin dir frame))) :
    (resultInit dir ((tag, frame) :: rest) (0, "", "", 0, "") statT true input_len
        fs).2
      = .error (.removeError (pyJoin dir frame)) := by
  simp [resultInit, resultLoop, hopen, hrm]

theorem result_delete_failure_fatal_witness :
    (resultInit "/out" [("T", "f.fits")] (0, "", "", 0, "") (7, 8, 1) true 2
        ⟨[("/out/f.fits", false)]⟩).2
      = .error (.removeError "/out/f.fits") :=
  result_delete_failure_fatal "/out" "T" "f.fits" [] (7, 8, 1) 2
    ⟨[("/out/f.fits", false)]⟩ rfl rfl

theorem fsOf_open (dir : String) (res0 : List (String × String))
    (p : String × String) (hp : p ∈ res0) :
    pyfitsOpen (fsOf dir res0) (pyAbspath (pyJoin dir p.2))
      = some (pyAbspath (pyJoin dir p.2)) := by
  have hm : ((fsOf dir res0).files.map (fun e => e.1)).contains
      (pyAbspath (pyJoin dir p.2)) = true := by
    apply List.elem_eq_true_of_mem
    simp only [fsOf, List.map_map]
    exact List.mem_map_of_mem _ hp
  unfold pyfitsOpen
  rw [if_pos hm]

theorem resultLoop_no_delete (dir : String) (il : Int) :
    ∀ (res0 : List (String × String)) (fs : FS) (ops : List FileOp)
      (dt : List (String × ResVal) × List String),
      (∀ p ∈ res0, pyfitsOpen fs (pyAbspath (pyJoin dir p.2))
          = some (pyAbspath (pyJoin dir p.2))) →
      resultLoop dir false il res0 fs ops dt.1 dt.2
        = (ops ++ res0.map (fun p => .opened (pyAbspath (pyJoin dir p.2))),
           .ok ((res0.foldl
                  (fun dt p => resultStep il dt.1 dt.2 p.1 (pyAbspath (pyJoin dir p.2)))
                  dt).1,
                (res0.foldl
                  (fun dt p => resultStep il dt.1 dt.2 p.1 (pyAbspath (pyJoin dir p.2)))
                  dt).2,
                fs)) := by
  intro res0
  induction res0 with
  | nil => intro fs ops dt _; simp [resultLoop]
  | cons p rest ih =>
      intro fs ops dt h
      obtain ⟨tag, frame⟩ := p
      have hp : pyfitsOpen fs (pyAbspath (pyJoin dir frame))
          = some (pyAbspath (pyJoin dir frame)) := h (tag, frame) (by simp)
      have hrest : ∀ q ∈ rest, pyfitsOpen fs (pyAbspath (pyJoin dir q.2))
          = some (pyAbspath (pyJoin dir q.2)) := fun q hq => h q (by simp [hq])
      have ihe := ih fs (ops ++ [FileOp.opened (pyAbspath (pyJoin dir frame))])
        (resultStep il dt.1 dt.2 tag (pyAbspath (pyJoin dir frame))) hrest
      simp only [resultLoop, hp, Bool.false_eq_true, if_false, List.foldl_cons]
      rw [ihe]
      simp

theorem feed_many (il : Int) :
    ∀ (hs : List HDU) (l : List HDU),
      feed il (some (.many l)) hs = some (.many (l ++ hs)) := by
  intro hs
  induction hs with
  | nil => intro l; simp [feed]
  | cons h rest ih => intro l; simp [feed, ih]

theorem feed_two (il : Int) (h1 h2 : HDU) (hs : List HDU) :
    feed il none (h1 :: h2 :: hs) = some (.many (h1 :: h2 :: hs)) := by
  by_cases hil : il = 1
  · simp [feed, hil, feed_many]
  · simp [feed, hil, feed_many]

theorem foldStep_lookup (il : Int) (T dir : String) :
    ∀ (ps : List (String × String)) (dt : List (String × ResVal) × List String),
      lookupA ((ps.foldl
          (fun dt p => resultStep il dt.1 dt.2 p.1 (pyAbspath (pyJoin dir p.2)))
          dt).1) T
        = feed il (lookupA dt.1 T)
            ((tagFilesOf T ps).map (fun x => pyAbspath (pyJoin dir x))) := by
  intro ps
  induction ps with
  | nil => intro dt; simp [tagFilesOf, feed]
  | cons p rest ih =>
      intro dt
      obtain ⟨tag, frame⟩ := p
      by_cases hT : tag = T
      · subst hT
        have htf : tagFilesOf tag ((tag, frame) :: rest)
            = frame :: tagFilesOf tag rest := by
          simp [tagFilesOf]
        rw [List.foldl_cons, htf, ih]
        cases hld : lookupA dt.1 tag with
        | none => simp [resultStep, hld, lookupA_updateA_self, feed]
        | some rv =>
            cases rv with
            | single h0 => simp [resultStep, hld, lookupA_updateA_self, feed]
            | many l => simp [resultStep, hld, lookupA_updateA_self, feed]
      · have htf : tagFilesOf T ((tag, frame) :: rest) = tagFilesOf T rest := by
          simp [tagFilesOf, hT]
        rw [List.foldl_cons, htf, ih]
        have hpre : lookupA (resultStep il dt.1 dt.2 tag
            (pyAbspath (pyJoin dir frame))).1 T = lookupA dt.1 T := by
          cases hld : lookupA dt.1 tag with
          | none => simp [resultStep, hld, lookupA_updateA_ne tag T (Ne.symm hT)]
          | some rv =>
              cases rv with
              | single h0 =>
                  simp [resultStep, hld, lookupA_updateA_ne tag T (Ne.symm hT)]
              | many l =>
                  simp [resultStep, hld, lookupA_updateA_ne tag T (Ne.symm hT)]
        rw [hpre]

theorem dictLookup_feed (dir : String) (res0 : List (String × String)) (il : Int)
    (T : String) :
    dictLookup dir res0 il T
      = feed il none ((tagFilesOf T res0).map (fun x => pyAbspath (pyJoin dir x))) := by
  have hfold := foldStep_lookup il T dir res0 ([], [])
  unfold dictLookup runResult resultInit
  rw [resultLoop_no_delete dir il res0 (fsOf dir res0) [] ([], [])
      (fun p hp => fsOf_open dir res0 p hp)]
  simpa [statInit, lookupA] using hfold

/-- C1: the shape-inference rule of Result construction: with exactly one
result pair tagged `T` the slot is a one-element list when `input_len = 1`
and a bare HDU list otherwise; with two or more pairs tagged `T` the slot is
the list of their HDUs in arrival order, regardless of `input_len`. -/
theorem result_shape_inference (dir : String) (res0 : List (String × String))
    (il : Int) (T f f1 f2 : String) (rest : List String) :
    (tagFilesOf T res0 = [f] → il = 1 →
        dictLookup dir res0 il T = some (.many [pyAbspath (pyJoin dir f)]))
  ∧ (tagFilesOf T res0 = [f] → il ≠ 1 →
        dictLookup dir res0 il T = some (.single (pyAbspath (pyJoin dir f))))
  ∧ (tagFilesOf T res0 = f1 :: f2 :: rest →
        dictLookup dir res0 il T
          = some (.many ((f1 :: f2 :: rest).map (fun x => pyAbspath (pyJoin dir x))))) := by
  refine ⟨?_, ?_, ?_⟩
  · intro htf hil
    rw [dictLookup_feed, htf]
    simp [feed, hil]
  · intro htf hil
    rw [dictLookup_feed, htf]
    simp [feed, hil]
  · intro htf
    rw [dictLookup_feed, htf]
    simp [feed_two]

theorem result_shape_inference_witness :
    dictLookup "/out" [("T", "a.fits")] 1 "T" = some (.many ["/out/a.fits"]) :=
  (result_shape_inference "/out" [("T", "a.fits")] 1 "T" "a.fits" "" "" []).1
    rfl rfl

theorem FrameConfig.eq_mk {α : Type} (c : FrameConfig α) :
    c = ⟨c.tag, c.min, c.max, c.frames⟩ := rfl

theorem cplDict_flat {α : Type} (values : List (String × FrameConfig α))
    (cfgs : List (String × List Decl)) :
    cplDict values cfgs
      = (cfgs.flatMap (fun cfg => cfg.2)).foldl cplStep
          (([] : List (String × FrameConfig α)), values) := by
  unfold cplDict
  have haux : ∀ (cs : List (String × List Decl))
      (st : List (String × FrameConfig α) × List (String × FrameConfig α)),
      cs.foldl (fun st cfg => cfg.2.foldl cplStep st) st
        = (cs.flatMap (fun cfg => cfg.2)).foldl cplStep st := by
    intro cs
    induction cs with
    | nil => intro st; simp
    | cons cfg rest ih => intro st; simp [List.foldl_append, ih]
  exact haux cfgs ([], values)

theorem cplStep_lookup_ne {α : Type}
    (st : List (String × FrameConfig α) × List (String × FrameConfig α))
    (f : Decl) (T : String) (h : T ≠ f.1) :
    lookupA (cplStep st f).1 T = lookupA st.1 T
      ∧ lookupA (cplStep st f).2 T = lookupA st.2 T := by
  unfold cplStep
  cases h1 : lookupA st.1 f.1 with
  | some c => simp [lookupA_updateA_ne f.1 T h]
  | none =>
      cases h2 : lookupA st.2 f.1 with
      | some c => simp [lookupA_updateA_ne f.1 T h]
      | none => simp [lookupA_updateA_ne f.1 T h]

theorem cplFold_some {α : Type} (T : String) :
    ∀ (fs : List Decl)
      (st : List (String × FrameConfig α) × List (String × FrameConfig α))
      (c : FrameConfig α),
      lookupA st.1 T = some c →
      lookupA ((fs.foldl cplStep st).1) T = some (extFold c (occsIn T fs)) := by
  intro fs
  induction fs with
  | nil => intro st c h; simpa [occsIn, extFold] using h
  | cons f rest ih =>
      intro st c h
      by_cases hT : f.1 = T
      · have hstep : lookupA (cplStep st f).1 T
            = some (c.extend_range f.2.1 f.2.2) := by
          simp [cplStep, hT, h, lookupA_updateA_self]
        rw [List.foldl_cons, ih _ _ hstep]
        simp [occsIn, hT, extFold]
      · have hne : T ≠ f.1 := fun e => hT e.symm
        have hstep := (cplStep_lookup_ne st f T hne).1
        rw [List.foldl_cons, ih _ _ (by rw [hstep]; exact h)]
        simp [occsIn, hT]

theorem cplFold_none {α : Type} (T : String) :
    ∀ (fs : List Decl)
      (st : List (String × FrameConfig α) × List (String × FrameConfig α))
      (bv : Option (FrameConfig α)),
      lookupA st.1 T = none → lookupA st.2 T = bv →
      lookupA ((fs.foldl cplStep st).1) T
        = match occsIn T fs with
          | [] => none
          | (m, x) :: rest =>
              some (extFold
                (match bv with
                 | some c => c.set_range m x
                 | none => FrameConfig.init T m x none) rest) := by
  intro fs
  induction fs with
  | nil => intro st bv h1 _; simpa [occsIn] using h1
  | cons f rest ih =>
      intro st bv h1 h2
      obtain ⟨ftag, fm, fx⟩ := f
      by_cases hT : ftag = T
      · subst hT
        have h1' : lookupA st.1 ftag = none := h1
        cases hbv : bv with
        | some c =>
            have h2' : lookupA st.2 ftag = some c := by rw [h2, hbv]
            have hstep : lookupA (cplStep st (ftag, fm, fx)).1 ftag
                = some (c.set_range fm fx) := by
              simp [cplStep, h1', h2', lookupA_updateA_self]
            rw [List.foldl_cons, cplFold_some ftag rest _ _ hstep]
            simp [occsIn]
        | none =>
            have h2' : lookupA st.2 ftag = none := by rw [h2, hbv]
            have hstep : lookupA (cplStep st (ftag, fm, fx)).1 ftag
                = some (FrameConfig.init ftag fm fx none) := by
              simp [cplStep, h1', h2', lookupA_updateA_self]
            rw [List.foldl_cons, cplFold_some ftag rest _ _ hstep]
            simp [occsIn]
      · have hne : T ≠ ftag := fun e => hT e.symm
        have hs1 := (cplStep_lookup_ne st (ftag, fm, fx) T hne).1
        have hs2 := (cplStep_lookup_ne st (ftag, fm, fx) T hne).2
        rw [List.foldl_cons, ih _ bv (by rw [hs1]; exact h1) (by rw [hs2, h2])]
        simp [occsIn, hT]

theorem extend_range_min {α : Type} (c : FrameConfig α) (minf maxf : Option Int) :
    (c.extend_range minf maxf).min = combMin c.min minf := by
  cases hcm : c.min <;> cases minf <;> simp [FrameConfig.extend_range, combMin, hcm]

theorem extend_range_max {α : Type} (c : FrameConfig α) (minf maxf : Option Int) :
    (c.extend_range minf maxf).max = combMax c.max maxf := by
  cases hcm : c.max <;> cases maxf <;> simp [FrameConfig.extend_range, combMax, hcm]

theorem minAbsorb_cons2 (a b : Option Int) (l : List (Option Int)) :
    minAbsorb (a :: b :: l) = minAbsorb (combMin a b :: l) := by
  cases l with
  | nil => cases a <;> cases b <;> simp [minAbsorb, combMin]
  | cons c l2 =>
      cases a <;> cases b <;> cases hM : minAbsorb (c :: l2) <;>
        simp [minAbsorb, combMin, hM, min_assoc]

theorem maxAbsorb_cons2 (a b : Option Int) (l : List (Option Int)) :
    maxAbsorb (a :: b :: l) = maxAbsorb (combMax a b :: l) := by
  cases l with
  | nil => cases a <;> cases b <;> simp [maxAbsorb, combMax]
  | cons c l2 =>
      cases a <;> cases b <;> cases hM : maxAbsorb (c :: l2) <;>
        simp [maxAbsorb, combMax, hM, max_assoc]

theorem extFold_bounds {α : Type} :
    ∀ (ps : List (Option Int × Option Int)) (c0 : FrameConfig α),
      (extFold c0 ps).tag = c0.tag ∧ (extFold c0 ps).frames = c0.frames
      ∧ (extFold c0 ps).min = minAbsorb (c0.min :: ps.map (fun p => p.1))
      ∧ (extFold c0 ps).max = maxAbsorb (c0.max :: ps.map (fun p => p.2)) := by
  intro ps
  induction ps with
  | nil => intro c0; simp [extFold, minAbsorb, maxAbsorb]
  | cons p rest ih =>
      intro c0
      have h := ih (c0.extend_range p.1 p.2)
      have hcons : extFold c0 (p :: rest)
          = extFold (c0.extend_range p.1 p.2) rest := rfl
      refine ⟨?_, ?_, ?_, ?_⟩
      · rw [hcons, h.1]; rfl
      · rw [hcons, h.2.1]; rfl
      · rw [hcons, h.2.2.1, extend_range_min]
        exact (minAbsorb_cons2 c0.min p.1 (rest.map (fun p => p.1))).symm
      · rw [hcons, h.2.2.2, extend_range_max]
        exact (maxAbsorb_cons2 c0.max p.2 (rest.map (fun p => p.2))).symm

/-- C4: in the merged view computed by `_cpl_dict`, a declared tag new to
the caller baseline is entered as a fresh FrameConfig from the declared
bounds (first conjunct), a declared tag present in the baseline keeps its
`frames` value while its bounds are unconditionally overwritten by the
declared bounds (second conjunct, `rest = []`), and in both cases bounds of
duplicate declarations of one pass are widened: min of mins and max of
maxes, an absent bound absorbing. -/
theorem merged_view_bounds {α : Type} (values : List (String × FrameConfig α))
    (cfgs : List (String × List Decl)) (T : String) (m x : Option Int)
    (rest : List (Option Int × Option Int)) (c : FrameConfig α) :
    (occsIn T (cfgs.flatMap (fun cfg => cfg.2)) = (m, x) :: rest →
        lookupA values T = none →
        lookupA (cplDict values cfgs).1 T
          = some ⟨T, minAbsorb (normB m :: rest.map (fun p => p.1)),
                     maxAbsorb (normB x :: rest.map (fun p => p.2)), some none⟩)
  ∧ (occsIn T (cfgs.flatMap (fun cfg => cfg.2)) = (m, x) :: rest →
        lookupA values T = some c →
        lookupA (cplDict values cfgs).1 T
          = some ⟨c.tag, minAbsorb (m :: rest.map (fun p => p.1)),
                         maxAbsorb (x :: rest.map (fun p => p.2)), c.frames⟩) := by
  constructor
  · intro ho hv
    rw [cplDict_flat,
        cplFold_none T (cfgs.flatMap (fun cfg => cfg.2)) ([], values) none rfl hv,
        ho]
    show some (extFold (FrameConfig.init T m x (none : Option α)) rest) = _
    have hb := extFold_bounds rest (FrameConfig.init T m x (none : Option α))
    rw [FrameConfig.eq_mk (extFold (FrameConfig.init T m x (none : Option α)) rest),
        hb.1, hb.2.1, hb.2.2.1, hb.2.2.2]
    rfl
  · intro ho hv
    rw [cplDict_flat,
        cplFold_none T (cfgs.flatMap (fun cfg => cfg.2)) ([], values) (some c) rfl hv,
        ho]
    show some (extFold (c.set_range m x) rest) = _
    have hb := extFold_bounds rest (c.set_range m x)
    rw [FrameConfig.eq_mk (extFold (c.set_range m x) rest),
        hb.1, hb.2.1, hb.2.2.1, hb.2.2.2]
    rfl

theorem merged_view_bounds_witness :
    lookupA (cplDict [("T", (⟨"T", some 9, some 9, some (some 7)⟩ : FrameConfig Nat))]
        [("muse", [("T", some 2, some 3), ("T", some 1, some 5)])]).1 "T"
      = some ⟨"T", some 1, some 5, some (some 7)⟩ :=
  (merged_view_bounds [("T", ⟨"T", some 9, some 9, some (some 7)⟩)]
    [("muse", [("T", some 2, some 3), ("T", some 1, some 5)])] "T"
    (some 2) (some 3) [(some 1, some 5)]
    ⟨"T", some 9, some 9, some (some 7)⟩).2 rfl rfl

end PyCpl
